import Mathlib

/-!
Verification of the `fastclient` declarative HTTP API client builder
(`src/fastclient/client.py`) against its natural-language specification.

The Python source is shallowly embedded: the runtime values a decorated
method manipulates become the inductive `PyVal`; parameter annotations
become `PyType` (a plain class, a generic alias such as `list[int]`, or an
`Annotated[...]` carrying binding markers and constraints); the signature
scanner `ApiMethodParams.from_api_method`, the adapter operations of
`ApiMethodTypeAdapters`, and the call-time `wrapper` of `api_call` become
executable Lean functions.  Fallible Python code (raised exceptions) is
embedded with `Except`/`Option`; the number of invocations of the injected
transport's `send` is returned alongside the call result so that "send is
never invoked" is expressible.
-/

/-! ## Python runtime values

`PyVal` covers the values exercised by the client: ints, strings, booleans,
`None`, lists, plain dicts (also the result of parsing JSON), and
structured instances (pydantic models / dataclasses / TypedDicts), whose
fields carry an optional serialization alias taken from their declaration.
The field lists are separate mutual inductives so that every function on
them is structurally recursive and reduces definitionally. -/

mutual
inductive PyVal where
  | vNone
  | vBool (b : Bool)
  | vInt (n : Int)
  | vStr (s : String)
  | vList (xs : PyList)
  | vDict (fs : PyDict)
  | vModel (cls : String) (fs : PyObjFields)
deriving DecidableEq
inductive PyList where
  | nil
  | cons (v : PyVal) (rest : PyList)
deriving DecidableEq
inductive PyDict where
  | nil
  | cons (k : String) (v : PyVal) (rest : PyDict)
deriving DecidableEq
inductive PyObjFields where
  | nil
  | cons (name : String) (salias : Option String) (v : PyVal) (rest : PyObjFields)
deriving DecidableEq
end

/-! ## Classes and annotations -/

/-- Python classes relevant to the client: `int`, `str`, `dict` (the
source's `JSON` alias), `httpx.Response`, pydantic `BaseModel` subclasses,
dataclass/TypedDict-like structural classes (not `BaseModel` subclasses),
and arbitrary other classes. -/
inductive PyClass where
  | intC
  | strC
  | dictC
  | responseC
  | modelC (name : String)
  | dataC (name : String)
  | otherC (name : String)
deriving DecidableEq

/-- Metadata items that can appear inside `Annotated[...]`: the fastapi
binding markers `Query`/`Path`/`Header`/`Cookie` (subclasses of `Param`)
and `Body`, each optionally carrying a `serialization_alias`; the
`annotated_types.Gt` constraint; and unrecognized metadata. -/
inductive Marker where
  | queryM (salias : Option String)
  | pathM (salias : Option String)
  | headerM (salias : Option String)
  | cookieM (salias : Option String)
  | bodyM (salias : Option String)
  | gt (bound : Int)
  | otherM
deriving DecidableEq

/-- Declared parameter annotations.  `cls` is a plain class (for which
`isinstance(spec, type)` holds); `generic` is a parameterized alias such as
`list[int]` whose `__origin__` is a class but which is itself not a `type`
instance (Python >= 3.11 semantics); `annotated` is a flattened
`Annotated[base, m1, ..., mk]` whose `__origin__` is `base` and whose
`__metadata__` is the marker tuple. -/
inductive PyType where
  | cls (c : PyClass)
  | generic (origin : PyClass)
  | annotated (base : PyType) (meta : List Marker)
deriving DecidableEq

/-- Serialization alias attached to an annotation: pydantic reads the
`serialization_alias` of the `FieldInfo` markers inside `Annotated`; when
several carry one, the last wins. -/
def serAliasOf : PyType → Option String
  | .annotated _ ms => (ms.filterMap fun m => match m with
      | .queryM a => a
      | .pathM a => a
      | .headerM a => a
      | .cookieM a => a
      | .bodyM a => a
      | _ => none).getLast?
  | _ => none

/-- Strict lower bounds collected from `Gt` constraint markers. -/
def gtBoundsOf : List Marker → List Int :=
  List.filterMap fun m => match m with
    | .gt b => some b
    | _ => none

/-! ## String-keyed association lists (Python dicts) -/

/-- Lookup in an association list, first match wins (Python dict keys are
unique, so this is plain dict indexing). -/
def lookupStr {α : Type} : List (String × α) → String → Option α
  | [], _ => none
  | (k1, v) :: rest, k => if k1 = k then some v else lookupStr rest k

/-- Python dict merge `\x7b**d1, **d2\x7d`: keys of `d1` keep their
position with values overridden by `d2`, then keys of `d2` absent from
`d1` follow in their own order. -/
def pyMerge {α : Type} (d1 d2 : List (String × α)) : List (String × α) :=
  (d1.map fun p => (p.1, ((lookupStr d2 p.1).getD p.2)))
    ++ d2.filter fun p => (lookupStr d1 p.1).isNone

-- Decidable equality of `Except` results, for concrete evaluations.
deriving instance DecidableEq for Except

/-! ## Parameter plan: `ApiMethodParams` -/

/-- Mirror of the `ApiMethodParams` dataclass: one name-to-annotation
mapping per binding group. -/
structure ApiMethodParams where
  body : List (String × PyType) := []
  path : List (String × PyType) := []
  query : List (String × PyType) := []
  header : List (String × PyType) := []
deriving DecidableEq

/-- Mirror of the `ApiMethodParams.request` cached property:
`\x7b**self.path, **self.query, **self.body\x7d`. -/
def requestParams (p : ApiMethodParams) : List (String × PyType) :=
  pyMerge (pyMerge p.path p.query) p.body

/-- Python errors raised by the embedded code paths. -/
inductive PyErr where
  | typeError
  | valueError (msg : String)
  | notImplementedError (msg : String)
deriving DecidableEq

/-- Message of the `NotImplementedError` raised for a model-typed `Query`
parameter (client.py line 58). -/
def multiQueryMsg : String := "Multiple query params models are not yet supported."

/-- Binding groups a scanned parameter can be stored into. -/
inductive Slot where
  | path
  | query
  | header
  | body
deriving DecidableEq

/-- Group of a plan selected by a slot. -/
def groupOf (p : ApiMethodParams) : Slot → List (String × PyType)
  | .path => p.path
  | .query => p.query
  | .header => p.header
  | .body => p.body

/-- Classification of one annotation entry, mirroring the `match`
statement of `ApiMethodParams.from_api_method` (client.py lines 48-70)
case by case.  `ok none` means the entry is stored in no group: the
`return` pseudo-entry, a `Cookie`-marked parameter (the `getattr` fallback
assigns into a throwaway dict), metadata whose last element is not a
recognized marker, and generic aliases (no case of the `match` applies,
the loop falls through silently). -/
def classifyParam (k : String) (t : PyType) : Except PyErr (Option Slot) :=
  if k = "return" then .ok none
  else match t with
    | .annotated b ms =>
      match ms.getLast? with
      | some (.queryM _) =>
        match b with
        | .cls (.modelC _) =>
          -- case line 52: origin is a class, subclass of BaseModel, last marker Query
          .error (.notImplementedError multiQueryMsg)
        | _ => .ok (some .query)  -- case line 59 with in_ = query
      | some (.pathM _) => .ok (some .path)      -- case line 59 with in_ = path
      | some (.headerM _) => .ok (some .header)  -- case line 59 with in_ = header
      | some (.cookieM _) => .ok none            -- case line 59: getattr default discards cookies
      | some (.bodyM _) => .ok (some .body)      -- case line 63
      | some (.gt _) => .ok none                 -- no case applies: last metadata not a marker
      | some .otherM => .ok none                 -- no case applies
      | none => .ok none
    | .cls _ => .ok (some .body)                 -- case line 67: plain class, no metadata
    | .generic _ => .ok none                     -- no case applies (not a type instance)

/-- Store an annotation entry into the selected group (front position:
entries scanned earlier precede later ones). -/
def insertSlot (s : Option Slot) (k : String) (t : PyType) (p : ApiMethodParams) :
    ApiMethodParams :=
  match s with
  | none => p
  | some .path => { p with path := (k, t) :: p.path }
  | some .query => { p with query := (k, t) :: p.query }
  | some .header => { p with header := (k, t) :: p.header }
  | some .body => { p with body := (k, t) :: p.body }

/-- Mirror of `ApiMethodParams.from_api_method`: scan the annotation
mapping in order, classifying every entry; a model-typed `Query` parameter
raises, every other entry is stored in at most one group. -/
def fromApiMethod : List (String × PyType) → Except PyErr ApiMethodParams
  | [] => .ok {}
  | (k, t) :: rest =>
    match classifyParam k t with
    | .error e => .error e
    | .ok s => (fromApiMethod rest).map (insertSlot s k t)

/-! ## Serialization -/

/-- JSON string escaping for the two mandatory escapes (quote and
backslash); other characters pass through unchanged, which covers every
string the repository serializes. -/
def jsonEscape (s : String) : String :=
  String.mk (s.data.foldr (fun c acc =>
    if c = '"' then '\\' :: '"' :: acc
    else if c = '\\' then '\\' :: '\\' :: acc
    else c :: acc) [])

/-- Quoted JSON string. -/
def jsonQuote (s : String) : String := "\"" ++ jsonEscape s ++ "\""

mutual
/-- Compact JSON rendering of a value, as `pydantic`'s `dump_json`
produces it; `byAlias` selects each structured field's serialization
alias over its name, as `by_alias=True` does. -/
def dumpJsonVal (byAlias : Bool) : PyVal → String
  | .vNone => "null"
  | .vBool b => if b then "true" else "false"
  | .vInt n => toString n
  | .vStr s => jsonQuote s
  | .vList xs => "[" ++ dumpJsonList byAlias xs ++ "]"
  | .vDict fs => "\x7b" ++ dumpJsonDict byAlias fs ++ "\x7d"
  | .vModel _ fs => "\x7b" ++ dumpJsonObjFields byAlias fs ++ "\x7d"
/-- Comma-separated rendering of list elements. -/
def dumpJsonList (byAlias : Bool) : PyList → String
  | .nil => ""
  | .cons v .nil => dumpJsonVal byAlias v
  | .cons v (.cons w rest) =>
    dumpJsonVal byAlias v ++ "," ++ dumpJsonList byAlias (.cons w rest)
/-- Comma-separated rendering of dict entries. -/
def dumpJsonDict (byAlias : Bool) : PyDict → String
  | .nil => ""
  | .cons k v .nil => jsonQuote k ++ ":" ++ dumpJsonVal byAlias v
  | .cons k v (.cons k2 w rest) =>
    jsonQuote k ++ ":" ++ dumpJsonVal byAlias v ++ ","
      ++ dumpJsonDict byAlias (.cons k2 w rest)
/-- Comma-separated rendering of structured-instance fields, honoring
serialization aliases when `byAlias` is set. -/
def dumpJsonObjFields (byAlias : Bool) : PyObjFields → String
  | .nil => ""
  | .cons n a v .nil =>
    jsonQuote (if byAlias then a.getD n else n) ++ ":" ++ dumpJsonVal byAlias v
  | .cons n a v (.cons m b w rest) =>
    jsonQuote (if byAlias then a.getD n else n) ++ ":" ++ dumpJsonVal byAlias v ++ ","
      ++ dumpJsonObjFields byAlias (.cons m b w rest)
end

mutual
/-- Python-mode dump (`dump_python`): structured instances become plain
dicts, keyed by alias when `byAlias` is set; scalars pass through. -/
def dumpPyVal (byAlias : Bool) : PyVal → PyVal
  | .vModel _ fs => .vDict (dumpPyObjFields byAlias fs)
  | .vDict fs => .vDict (dumpPyDict byAlias fs)
  | .vList xs => .vList (dumpPyList byAlias xs)
  | v => v
/-- Elementwise python-mode dump of a list. -/
def dumpPyList (byAlias : Bool) : PyList → PyList
  | .nil => .nil
  | .cons v rest => .cons (dumpPyVal byAlias v) (dumpPyList byAlias rest)
/-- Entrywise python-mode dump of a dict. -/
def dumpPyDict (byAlias : Bool) : PyDict → PyDict
  | .nil => .nil
  | .cons k v rest => .cons k (dumpPyVal byAlias v) (dumpPyDict byAlias rest)
/-- Fieldwise python-mode dump of a structured instance. -/
def dumpPyObjFields (byAlias : Bool) : PyObjFields → PyDict
  | .nil => .nil
  | .cons n a v rest =>
    .cons (if byAlias then a.getD n else n) (dumpPyVal byAlias v)
      (dumpPyObjFields byAlias rest)
end

/-- Python `str()` of a value, as `str.format` applies it to substituted
path values; only scalars are ever formatted by the repository. -/
def pyStr : PyVal → String
  | .vNone => "None"
  | .vBool b => if b then "True" else "False"
  | .vInt n => toString n
  | .vStr s => s
  | .vList _ => "[...]"
  | .vDict _ => "\x7b...\x7d"
  | .vModel cls _ => "<" ++ cls ++ ">"

/-! ## Type adapters (`ApiMethodTypeAdapters`)

Each cached property of `ApiMethodTypeAdapters` builds a
`TypeAdapter(TypedDict(..., group))` object.  The source code guards
several operations with `if not self.<adapter>`, but a `TypeAdapter`
object defines neither `__bool__` nor `__len__`, so it is always truthy —
even the adapter of an empty group.  `adapterTruthy` embeds that object
truthiness honestly so the dead guards stay visible. -/

/-- Python truthiness of the `TypeAdapter` built from a group: always
`true`, for any group, including the empty one. -/
def adapterTruthy (_group : List (String × PyType)) : Bool := true

/-- Serialization of a group's `TypedDict` adapter (`dump_python`): every
declared field present in the supplied mapping is emitted in declaration
order, keyed by its serialization alias when `byAlias` is set; fields
missing from the mapping are skipped (pydantic emits them neither). -/
def dumpPythonGroup (byAlias : Bool) (group : List (String × PyType))
    (kwargs : List (String × PyVal)) : List (String × PyVal) :=
  group.filterMap fun nt =>
    (lookupStr kwargs nt.1).map fun v =>
      ((if byAlias then (serAliasOf nt.2).getD nt.1 else nt.1), dumpPyVal byAlias v)

/-- Mirror of `_build_query_params`:
`self.query.dump_python(kwargs, by_alias=True) if self.query else None`. -/
def buildQueryParamsOpt (p : ApiMethodParams) (kwargs : List (String × PyVal)) :
    Option (List (String × PyVal)) :=
  if adapterTruthy p.query then some (dumpPythonGroup true p.query kwargs) else none

/-- Query mapping actually attached to the request (the truthy branch of
`_build_query_params`). -/
def buildQueryParams (p : ApiMethodParams) (kwargs : List (String × PyVal)) :
    List (String × PyVal) :=
  dumpPythonGroup true p.query kwargs

/-- Entries of the JSON body object produced by
`self.body.dump_json(kwargs, by_alias=True)`: alias-substituted key paired
with the rendered JSON value of each body field present in `kwargs`. -/
def bodyJsonEntries (group : List (String × PyType)) (kwargs : List (String × PyVal)) :
    List (String × String) :=
  group.filterMap fun nt =>
    (lookupStr kwargs nt.1).map fun v =>
      ((serAliasOf nt.2).getD nt.1, dumpJsonVal true v)

/-- Rendering of the body object from its entries. -/
def renderJsonObj (entries : List (String × String)) : String :=
  "\x7b" ++ String.intercalate "," (entries.map fun e => jsonQuote e.1 ++ ":" ++ e.2) ++ "\x7d"

/-- Mirror of `_build_request_content` (client.py lines 115-120): the
`if not self.body: return None` guard is kept, but `adapterTruthy` makes
its `none` branch dead, exactly as in the source, so the result is always
the serialized JSON bytes of the body `TypedDict` — `b"\x7b\x7d"` when the
body group is empty. -/
def buildRequestContent (p : ApiMethodParams) (kwargs : List (String × PyVal)) :
    Option String :=
  if adapterTruthy p.body then some (renderJsonObj (bodyJsonEntries p.body kwargs))
  else none

/-! ## URL template formatting (`str.format`) -/

/-- Errors of Python `str.format` plus the `KeyError` for an unresolved
placeholder. -/
inductive FmtErr where
  | keyError (name : String)
  | singleBrace
  | unmatchedBrace
  | braceInField
deriving DecidableEq

/-- Character-level state machine of `url.format(**m)` restricted to plain
`\x7bname\x7d` fields (the only form the repository uses): the second
argument is `none` outside a replacement field and `some acc` inside one,
`acc` holding the field name read so far.  `\x7b\x7b` and `\x7d\x7d`
escape to literal braces; a field name absent from `m` raises `KeyError`;
substituted values are rendered with `str()`. -/
def formatAux (m : List (String × PyVal)) :
    List Char → Option (List Char) → Except FmtErr (List Char)
  | [], none => .ok []
  | [], some _ => .error .unmatchedBrace
  | c :: rest, none =>
    if c = '\x7b' then
      match rest with
      | c2 :: rest2 =>
        if c2 = '\x7b' then (fun s => c :: s) <$> formatAux m rest2 none
        else formatAux m (c2 :: rest2) (some [])
      | [] => .error .unmatchedBrace
    else if c = '\x7d' then
      match rest with
      | c2 :: rest2 =>
        if c2 = '\x7d' then (fun s => c :: s) <$> formatAux m rest2 none
        else .error .singleBrace
      | [] => .error .singleBrace
    else (fun s => c :: s) <$> formatAux m rest none
  | c :: rest, some acc =>
    if c = '\x7d' then
      match lookupStr m (String.mk acc) with
      | some v => (fun s => (pyStr v).data ++ s) <$> formatAux m rest none
      | none => .error (.keyError (String.mk acc))
    else if c = '\x7b' then .error .braceInField
    else formatAux m rest (some (acc ++ [c]))

/-- Python `url.format(**m)`. -/
def pyFormat (url : String) (m : List (String × PyVal)) : Except FmtErr String :=
  String.mk <$> formatAux m url.data none

/-- Mirror of `_build_request_url` (client.py lines 102-106): the
`if not self.path: return url` short-circuit is dead (`adapterTruthy`), so
the template is always formatted with the dumped path group. -/
def buildRequestUrl (p : ApiMethodParams) (url : String)
    (kwargs : List (String × PyVal)) : Except FmtErr String :=
  if adapterTruthy p.path then pyFormat url (dumpPythonGroup false p.path kwargs)
  else .ok url

/-- Mirror of `_build_request_headers` followed by the header-merge of
`build_request`: `\x7b"Content-Type": "application/json", **dump\x7d`.
The dump uses `dump_python(kwargs)` without `by_alias`; header values are
coerced to strings by the transport. -/
def buildRequestHeaders (p : ApiMethodParams) (kwargs : List (String × PyVal)) :
    List (String × String) :=
  pyMerge [("Content-Type", "application/json")]
    (if adapterTruthy p.header then
      (dumpPythonGroup false p.header kwargs).map fun e => (e.1, pyStr e.2)
    else [])

/-- Request object handed to the transport, mirroring the `httpx.Request`
constructor arguments of `build_request`. -/
structure HttpxRequest where
  method : String
  url : String
  queryParams : Option (List (String × PyVal))
  content : Option String
  headers : List (String × String)
deriving DecidableEq

/-- Mirror of `ApiMethodTypeAdapters.build_request` (client.py lines
122-133); the only fallible step is path substitution. -/
def buildRequest (p : ApiMethodParams) (method url : String)
    (kwargs : List (String × PyVal)) : Except FmtErr HttpxRequest :=
  (buildRequestUrl p url kwargs).map fun u =>
    { method := method
      url := u
      queryParams := buildQueryParamsOpt p kwargs
      content := buildRequestContent p kwargs
      headers := buildRequestHeaders p kwargs }

/-- Query-string rendering the transport applies to the query mapping
(urlencoding elided: the repository only serializes alias/int pairs that
need no escaping). -/
def renderQuery (l : List (String × PyVal)) : String :=
  String.intercalate "&" (l.map fun e => e.1 ++ "=" ++ pyStr e.2)

/-! ## Validation (`validate_request_params`) -/

/-- One entry of a pydantic `ValidationError`: the offending field and the
reason code. -/
structure FieldError where
  loc : String
  msg : String
deriving DecidableEq

/-- Check of the `Gt` constraints of a metadata list against a value
(constraints apply to the numeric values the repository declares them
on). -/
def gtOk (ms : List Marker) (v : PyVal) : Bool :=
  (gtBoundsOf ms).all fun b =>
    match v with
    | .vInt n => b < n
    | _ => true

/-- Typecheck of one declared annotation against a supplied value,
returning a pydantic-style reason code on mismatch.  Class checks mirror
pydantic's validation of the corresponding field types; `generic` aliases
never reach a group (the scanner drops them), so their check is vacuous. -/
def validateField : PyType → PyVal → Option String
  | .cls .intC, v => match v with | .vInt _ => none | _ => some "int_type"
  | .cls .strC, v => match v with | .vStr _ => none | _ => some "string_type"
  | .cls .dictC, v => match v with | .vDict _ => none | _ => some "dict_type"
  | .cls (.modelC nm), v =>
    match v with
    | .vModel nm2 _ => if nm = nm2 then none else some "model_type"
    | _ => some "model_type"
  | .cls (.dataC nm), v =>
    match v with
    | .vModel nm2 _ => if nm = nm2 then none else some "dataclass_type"
    | _ => some "dataclass_type"
  | .cls .responseC, _ => some "is_instance_of"
  | .cls (.otherC _), _ => some "is_instance_of"
  | .generic _, _ => none
  | .annotated b ms, v =>
    match validateField b v with
    | some e => some e
    | none => if gtOk ms v then none else some "greater_than"

/-- Fieldwise validation of a `TypedDict` adapter: every declared field is
required; a missing or invalid field contributes an error; extra keys of
the supplied mapping are ignored; errors are collected across all fields
(pydantic aggregates before raising). -/
def validateFields (fields : List (String × PyType)) (kwargs : List (String × PyVal)) :
    List FieldError × List (String × PyVal) :=
  match fields with
  | [] => ([], [])
  | (n, t) :: rest =>
    let r := validateFields rest kwargs
    match lookupStr kwargs n with
    | none => (⟨n, "missing"⟩ :: r.1, r.2)
    | some v =>
      match validateField t v with
      | some msg => (⟨n, msg⟩ :: r.1, r.2)
      | none => (r.1, (n, v) :: r.2)

/-- Mirror of `validate_request_params` (client.py lines 108-113): the
merged `request` adapter validates the call-time keyword arguments,
raising a `ValidationError` carrying the field-level detail when any field
fails, and returning the validated mapping otherwise. -/
def validateRequestParams (p : ApiMethodParams) (kwargs : List (String × PyVal)) :
    Except (List FieldError) (List (String × PyVal)) :=
  let r := validateFields (requestParams p) kwargs
  if r.1.isEmpty then .ok r.2 else .error r.1

/-! ## Response decoding -/

/-- Response object returned by the transport: status code and raw body
bytes (as a string). -/
structure HttpxResponse where
  status : Nat
  content : String
deriving DecidableEq

/-- Whitespace skip of the JSON parser. -/
def skipWs : List Char → List Char
  | c :: rest => if c = ' ' ∨ c = '\n' ∨ c = '\t' ∨ c = '\r' then skipWs rest else c :: rest
  | [] => []

/-- Digit run of the JSON parser, returning the accumulated value, the
number of digits read, and the remainder; fails on an empty run. -/
def parseDigits : List Char → Option (Nat × Nat × List Char)
  | c :: rest =>
    if c.isDigit then
      match parseDigits rest with
      | some (n, k, r) => some ((c.toNat - '0'.toNat) * 10 ^ k + n, k + 1, r)
      | none => some (c.toNat - '0'.toNat, 1, rest)
    else none
  | [] => none

/-- String-literal body of the JSON parser (after the opening quote), with
the two escapes the serializer emits. -/
def parseStrLit : List Char → Option (String × List Char)
  | '"' :: rest => some ("", rest)
  | '\\' :: c :: rest =>
    (parseStrLit rest).map fun r => (String.mk (c :: r.1.data), r.2)
  | c :: rest => (parseStrLit rest).map fun r => (String.mk (c :: r.1.data), r.2)
  | [] => none

mutual
/-- Fuel-indexed JSON value parser modelling `response.json()`; parsed
objects are plain dicts, so the result is a `PyVal`. -/
def parseJsonVal : Nat → List Char → Option (PyVal × List Char)
  | 0, _ => none
  | fuel + 1, cs =>
    match skipWs cs with
    | 'n' :: 'u' :: 'l' :: 'l' :: rest => some (.vNone, rest)
    | 't' :: 'r' :: 'u' :: 'e' :: rest => some (.vBool true, rest)
    | 'f' :: 'a' :: 'l' :: 's' :: 'e' :: rest => some (.vBool false, rest)
    | '"' :: rest => (parseStrLit rest).map fun r => (.vStr r.1, r.2)
    | '[' :: rest =>
      (match skipWs rest with
       | ']' :: rest2 => some (.vList .nil, rest2)
       | cs2 => (parseJsonItems fuel cs2).map fun r => (.vList r.1, r.2))
    | '\x7b' :: rest =>
      (match skipWs rest with
       | '\x7d' :: rest2 => some (.vDict .nil, rest2)
       | cs2 => (parseJsonMembers fuel cs2).map fun r => (.vDict r.1, r.2))
    | '-' :: rest => (parseDigits rest).map fun r => (.vInt (-(r.1 : Int)), r.2.2)
    | c :: rest =>
      if c.isDigit then (parseDigits (c :: rest)).map fun r => (.vInt (r.1 : Int), r.2.2)
      else none
    | [] => none
/-- Comma-separated array items up to the closing bracket. -/
def parseJsonItems : Nat → List Char → Option (PyList × List Char)
  | 0, _ => none
  | fuel + 1, cs =>
    match parseJsonVal fuel cs with
    | some (v, rest) =>
      (match skipWs rest with
       | ',' :: rest2 => (parseJsonItems fuel rest2).map fun r => (.cons v r.1, r.2)
       | ']' :: rest2 => some (.cons v .nil, rest2)
       | _ => none)
    | none => none
/-- Comma-separated object members up to the closing brace. -/
def parseJsonMembers : Nat → List Char → Option (PyDict × List Char)
  | 0, _ => none
  | fuel + 1, cs =>
    match skipWs cs with
    | '"' :: rest =>
      (match parseStrLit rest with
       | some (k, rest2) =>
         (match skipWs rest2 with
          | ':' :: rest3 =>
            (match parseJsonVal fuel rest3 with
             | some (v, rest4) =>
               (match skipWs rest4 with
                | ',' :: rest5 => (parseJsonMembers fuel rest5).map fun r => (.cons k v r.1, r.2)
                | '\x7d' :: rest5 => some (.cons k v .nil, rest5)
                | _ => none)
             | none => none)
          | _ => none)
       | none => none)
    | _ => none
end

/-- Model of `response.json()` / JSON decoding of the body: a full parse
of the content with no trailing garbage, `none` on invalid JSON. -/
def pyParseJson (s : String) : Option PyVal :=
  match parseJsonVal (s.length + 1) s.data with
  | some (v, rest) => if (skipWs rest).isEmpty then some v else none
  | none => none

/-- Result of a successful decoded call, one shape per supported return
type: a parsed model instance, a raw JSON mapping, or the transport
response passed through. -/
inductive CallResult where
  | modelVal (cls : String) (v : PyVal)
  | jsonVal (v : PyVal)
  | rawResp (r : HttpxResponse)
deriving DecidableEq

/-- Errors a call can raise. -/
inductive CallErr where
  | validationErr (errs : List FieldError)
  | formatErr (e : FmtErr)
  | httpStatusErr (status : Nat)
  | jsonDecodeErr
  | typeErr
deriving DecidableEq

/-- Mirror of the return-type dispatch of `wrapper` (client.py lines
159-164): a `BaseModel` subclass parses the body as its JSON encoding (the
model's own field re-validation is not further modelled — no claim
depends on it); `JSON`/`dict` parses the body as a generic mapping and
requires a mapping; anything else returns the response object unchanged,
never consulting the parser. -/
def decodeResponse (rt : PyClass) (resp : HttpxResponse) : Except CallErr CallResult :=
  match rt with
  | .modelC nm =>
    match pyParseJson resp.content with
    | some v => .ok (.modelVal nm v)
    | none => .error .jsonDecodeErr
  | .dictC =>
    match pyParseJson resp.content with
    | some (.vDict fs) => .ok (.jsonVal (.vDict fs))
    | some _ => .error .typeErr
    | none => .error .jsonDecodeErr
  | _ => .ok (.rawResp resp)

/-! ## The call wrapper -/

/-- Mirror of the `wrapper` closure of `api_call` (client.py lines
152-164), with the number of `self._adapter.send` invocations returned
alongside the outcome: validate the keyword arguments against the merged
adapter, build the request from the validated mapping, send it, raise for
an error status before decoding, then decode per the declared return
type.  Statuses >= 400 make `raise_for_status` raise. -/
def runCall (rt : PyClass) (p : ApiMethodParams) (method url : String)
    (transport : HttpxRequest → HttpxResponse) (kwargs : List (String × PyVal)) :
    Except CallErr CallResult × Nat :=
  match validateRequestParams p kwargs with
  | .error errs => (.error (.validationErr errs), 0)
  | .ok validated =>
    match buildRequest p method url validated with
    | .error e => (.error (.formatErr e), 0)
    | .ok req =>
      let resp := transport req
      if 400 ≤ resp.status then (.error (.httpStatusErr resp.status), 1)
      else (decodeResponse rt resp, 1)

/-! ## The decorator (`api_call`) -/

/-- Valid return classes: the source's
`valid_return_types = (BaseModel, JSON, httpx.Response)` tuple, as an
`issubclass` test. -/
def validReturn : PyClass → Bool
  | .modelC _ => true
  | .dictC => true
  | .responseC => true
  | _ => false

/-- Strip of `Annotated` wrappers applied by `get_type_hints` (which
resolves hints without extras). -/
def stripAnn : PyType → PyType
  | .annotated b _ => b
  | t => t

/-- Simplified `repr` of an annotation for the decorator's error
message. -/
def pyReprOf : PyType → String
  | .cls .intC => "<class 'int'>"
  | .cls .strC => "<class 'str'>"
  | .cls .dictC => "<class 'dict'>"
  | .cls .responseC => "<class 'httpx.Response'>"
  | .cls (.modelC nm) => "<class '" ++ nm ++ "'>"
  | .cls (.dataC nm) => "<class '" ++ nm ++ "'>"
  | .cls (.otherC nm) => "<class '" ++ nm ++ "'>"
  | .generic _ => "<generic alias>"
  | .annotated _ _ => "<annotated alias>"

/-- Error message of the decorator's return-type check (client.py lines
144-147), naming the supported shapes and the shape found. -/
def returnTypeMsg (found : String) : String :=
  "You need to specify return typehint using one of the supported types: "
    ++ "(BaseModel, dict, httpx.Response).\n\t"
    ++ "Type specified is: " ++ found

/-- Outcome of a successful decoration: the return class and the scanned
parameter plan the wrapper closes over. -/
structure DecoratedCall where
  rt : PyClass
  plan : ApiMethodParams
deriving DecidableEq

/-- Mirror of the decoration-time body of `api_call` (client.py lines
139-150): fetch the `return` hint, run
`issubclass(return_type, valid_return_types)` — which itself raises
`TypeError` when the hint is absent (`None`) or not a class — raise the
configuration `ValueError` when the check returns false, then scan the
signature (which may raise `NotImplementedError`). -/
def apiCallDecorate (annots : List (String × PyType)) : Except PyErr DecoratedCall :=
  match (lookupStr annots "return").map stripAnn with
  | none => .error .typeError
  | some (.generic _) => .error .typeError
  | some (.annotated _ _) => .error .typeError
  | some (.cls c) =>
    if validReturn c then (fromApiMethod annots).map fun p => ⟨c, p⟩
    else .error (.valueError (returnTypeMsg (pyReprOf (.cls c))))

/-- Truthiness helper for stating that a decoration attempt failed. -/
def exceptIsOk {ε α : Type} : Except ε α → Bool
  | .ok _ => true
  | .error _ => false

/-! ## Lookup and merge lemmas -/

lemma lookupStr_append {α : Type} (l1 l2 : List (String × α)) (k : String) :
    lookupStr (l1 ++ l2) k =
      match lookupStr l1 k with
      | some v => some v
      | none => lookupStr l2 k := by
  induction l1 with
  | nil => simp [lookupStr]
  | cons p rest ih =>
    obtain ⟨k1, v⟩ := p
    by_cases h : k1 = k <;> simp [lookupStr, h, ih]

lemma lookupStr_isSome_map_key {α β : Type} (l : List (String × α))
    (g : String × α → β) (k : String) :
    (lookupStr (l.map fun p => (p.1, g p)) k).isSome = (lookupStr l k).isSome := by
  induction l with
  | nil => simp [lookupStr]
  | cons p rest ih =>
    by_cases h : p.1 = k <;> simp [lookupStr, h, ih]

lemma lookupStr_filter_of_none {α : Type} (d1 d2 : List (String × α)) (k : String)
    (h : lookupStr d1 k = none) :
    lookupStr (d2.filter fun p => (lookupStr d1 p.1).isNone) k = lookupStr d2 k := by
  induction d2 with
  | nil => simp
  | cons p rest ih =>
    obtain ⟨k1, v⟩ := p
    by_cases hk : k1 = k
    · subst hk
      have hp : (lookupStr d1 k1).isNone = true := by simp [h]
      simp [List.filter, hp, lookupStr]
    · cases hp : (lookupStr d1 k1).isNone
      · simp [List.filter, hp, lookupStr, hk, ih]
      · simp [List.filter, hp, lookupStr, hk, ih]

lemma lookupStr_isSome_filter {α : Type} (l : List (String × α))
    (q : String × α → Bool) (k : String)
    (h : (lookupStr (l.filter q) k).isSome = true) :
    (lookupStr l k).isSome = true := by
  induction l with
  | nil => simp [lookupStr] at h
  | cons p rest ih =>
    obtain ⟨k1, v⟩ := p
    by_cases hk : k1 = k
    · simp [lookupStr, hk]
    · have hr : (lookupStr rest k).isSome = true := by
        cases hq : q (k1, v)
        · exact ih (by simpa [List.filter, hq] using h)
        · exact ih (by simpa [List.filter, hq, lookupStr, hk] using h)
      simpa [lookupStr, hk] using hr

lemma lookupStr_pyMerge_isSome {α : Type} (d1 d2 : List (String × α)) (k : String) :
    (lookupStr (pyMerge d1 d2) k).isSome
      = ((lookupStr d1 k).isSome || (lookupStr d2 k).isSome) := by
  unfold pyMerge
  rw [lookupStr_append]
  cases h1 : lookupStr (d1.map fun p => (p.1, ((lookupStr d2 p.1).getD p.2))) k with
  | some v =>
    have : (lookupStr d1 k).isSome = true := by
      rw [← lookupStr_isSome_map_key d1 (fun p => (lookupStr d2 p.1).getD p.2) k, h1]
      rfl
    simp [this]
  | none =>
    have h1' : (lookupStr d1 k).isSome = false := by
      rw [← lookupStr_isSome_map_key d1 (fun p => (lookupStr d2 p.1).getD p.2) k, h1]
      rfl
    have h1n : lookupStr d1 k = none := by
      cases h : lookupStr d1 k
      · rfl
      · rw [h] at h1'; simp at h1'
    rw [lookupStr_filter_of_none d1 d2 k h1n]
    simp [h1n]

lemma lookupStr_requestParams_isSome (p : ApiMethodParams) (k : String) :
    (lookupStr (requestParams p) k).isSome
      = ((lookupStr p.path k).isSome || (lookupStr p.query k).isSome
          || (lookupStr p.body k).isSome) := by
  unfold requestParams
  rw [lookupStr_pyMerge_isSome, lookupStr_pyMerge_isSome]

lemma lookupStr_eq_none_iff {α : Type} (l : List (String × α)) (k : String) :
    lookupStr l k = none ↔ ∀ p ∈ l, p.1 ≠ k := by
  induction l with
  | nil => simp [lookupStr]
  | cons p rest ih =>
    by_cases h : p.1 = k
    · cases p; simp_all [lookupStr]
    · cases p; simp_all [lookupStr]

/-! ## Scanner lemmas -/

/-- Distinctness of annotation keys (Python function annotations form a
dict, so keys are unique). -/
def distinctKeys (annots : List (String × PyType)) : Prop :=
  (annots.map Prod.fst).Nodup

lemma mem_annots_eq_of_distinct (annots : List (String × PyType)) (k : String)
    (t1 t2 : PyType) (hd : distinctKeys annots)
    (h1 : (k, t1) ∈ annots) (h2 : (k, t2) ∈ annots) : t1 = t2 := by
  induction annots with
  | nil => simp at h1
  | cons p rest ih =>
    have hd' : (p.1 :: rest.map Prod.fst).Nodup := by simpa [distinctKeys] using hd
    obtain ⟨hk, hrest⟩ := List.nodup_cons.mp hd'
    rcases List.mem_cons.mp h1 with rfl | m1
    · rcases List.mem_cons.mp h2 with e2 | m2
      · exact ((Prod.ext_iff.mp e2).2).symm
      · exact absurd (List.mem_map_of_mem Prod.fst m2) (by simpa using hk)
    · rcases List.mem_cons.mp h2 with rfl | m2
      · exact absurd (List.mem_map_of_mem Prod.fst m1) (by simpa using hk)
      · exact ih (by simpa [distinctKeys] using hrest) m1 m2

lemma classifyParam_error_eq (k : String) (t : PyType) (e : PyErr)
    (h : classifyParam k t = .error e) : e = .notImplementedError multiQueryMsg := by
  by_cases hk : k = "return"
  · simp [classifyParam, hk] at h
  · cases t with
    | cls c => simp [classifyParam, hk] at h
    | generic o => simp [classifyParam, hk] at h
    | annotated b ms =>
      simp only [classifyParam, if_neg hk] at h
      rcases hms : ms.getLast? with _ | m <;> rw [hms] at h
      · simp at h
      · cases m with
        | queryM a =>
          cases b with
          | cls c => cases c <;> simp_all
          | generic o => simp at h
          | annotated b2 ms2 => simp at h
        | pathM a => simp at h
        | headerM a => simp at h
        | cookieM a => simp at h
        | bodyM a => simp at h
        | gt n => simp at h
        | otherM => simp at h

lemma fromApiMethod_error_of_entry (annots : List (String × PyType))
    (h : ∃ p ∈ annots, ∃ e, classifyParam p.1 p.2 = .error e) :
    fromApiMethod annots = .error (.notImplementedError multiQueryMsg) := by
  induction annots with
  | nil => simp at h
  | cons p rest ih =>
    obtain ⟨q, hq, e, he⟩ := h
    rcases List.mem_cons.mp hq with rfl | hmem
    · have := classifyParam_error_eq q.1 q.2 e he
      subst this
      simp [fromApiMethod, he]
    · cases hc : classifyParam p.1 p.2 with
      | error e0 =>
        have := classifyParam_error_eq p.1 p.2 e0 hc
        subst this
        simp [fromApiMethod, hc]
      | ok s =>
        have hrest := ih ⟨q, hmem, e, he⟩
        simp [fromApiMethod, hc, hrest, Except.map]

lemma groupOf_insertSlot (s0 : Slot) (k0 : String) (t0 : PyType)
    (p : ApiMethodParams) (s : Slot) :
    groupOf (insertSlot (some s0) k0 t0 p) s =
      if s0 = s then (k0, t0) :: groupOf p s else groupOf p s := by
  cases s0 <;> cases s <;> simp [insertSlot, groupOf]

lemma fromApiMethod_group_mem (annots : List (String × PyType))
    (plan : ApiMethodParams) (s : Slot) (k : String) (t : PyType)
    (hs : fromApiMethod annots = .ok plan)
    (hm : lookupStr (groupOf plan s) k = some t) :
    (k, t) ∈ annots ∧ classifyParam k t = .ok (some s) := by
  induction annots generalizing plan with
  | nil =>
    have h0 : ({} : ApiMethodParams) = plan := by simpa [fromApiMethod] using hs
    subst h0
    cases s <;> simp [groupOf, lookupStr] at hm
  | cons p rest ih =>
    obtain ⟨k0, t0⟩ := p
    cases hc : classifyParam k0 t0 with
    | error e => simp [fromApiMethod, hc] at hs
    | ok s0 =>
      rw [fromApiMethod] at hs
      rw [hc] at hs
      cases hr : fromApiMethod rest with
      | error e => rw [hr] at hs; simp [Except.map] at hs
      | ok plan' =>
        rw [hr] at hs
        have hplan : plan = insertSlot s0 k0 t0 plan' := by
          simpa [Except.map] using hs.symm
        subst hplan
        cases s0 with
        | none =>
          have := ih plan' hr (by simpa [insertSlot] using hm)
          exact ⟨List.mem_cons_of_mem _ this.1, this.2⟩
        | some s1 =>
          by_cases hss : s1 = s
          · subst hss
            rw [groupOf_insertSlot, if_pos rfl] at hm
            by_cases hkk : k0 = k
            · subst hkk
              have ht : t = t0 := by simpa [lookupStr] using hm.symm
              subst ht
              exact ⟨List.mem_cons_self _ _, hc⟩
            · have hm' : lookupStr (groupOf plan' s1) k = some t := by
                simpa [lookupStr, hkk] using hm
              have := ih plan' hr hm'
              exact ⟨List.mem_cons_of_mem _ this.1, this.2⟩
          · rw [groupOf_insertSlot, if_neg hss] at hm
            have := ih plan' hr hm
            exact ⟨List.mem_cons_of_mem _ this.1, this.2⟩

/-! ## Validation lemmas -/

lemma validateRequestParams_error_ne_nil (p : ApiMethodParams)
    (kwargs : List (String × PyVal)) (errs : List FieldError)
    (h : validateRequestParams p kwargs = .error errs) : errs ≠ [] := by
  have h' : (if (validateFields (requestParams p) kwargs).1.isEmpty
      then (Except.ok (validateFields (requestParams p) kwargs).2 :
        Except (List FieldError) (List (String × PyVal)))
      else Except.error (validateFields (requestParams p) kwargs).1)
      = Except.error errs := h
  cases hif : (validateFields (requestParams p) kwargs).1.isEmpty with
  | true => rw [hif] at h'; simp at h'
  | false =>
    rw [hif] at h'
    simp at h'
    intro he
    rw [he] at h'
    rw [h'] at hif
    simp at hif

lemma validateFields_prepend_irrelevant (fields : List (String × PyType))
    (kwargs : List (String × PyVal)) (k : String) (v : PyVal)
    (h : ∀ f ∈ fields, f.1 ≠ k) :
    validateFields fields ((k, v) :: kwargs) = validateFields fields kwargs := by
  induction fields with
  | nil => rfl
  | cons f rest ih =>
    obtain ⟨n, t⟩ := f
    have hn : n ≠ k := h (n, t) (List.mem_cons_self _ _)
    have hkn : ¬(k = n) := fun e => hn e.symm
    have ih' := ih fun f hf => h f (List.mem_cons_of_mem _ hf)
    simp [validateFields, lookupStr, hkn, ih']

lemma validateRequestParams_prepend_irrelevant (p : ApiMethodParams)
    (kwargs : List (String × PyVal)) (k : String) (v : PyVal)
    (h : lookupStr (requestParams p) k = none) :
    validateRequestParams p ((k, v) :: kwargs) = validateRequestParams p kwargs := by
  unfold validateRequestParams
  rw [validateFields_prepend_irrelevant _ _ _ _ ((lookupStr_eq_none_iff _ _).mp h)]

/-! ## Formatting lemmas -/

/-- Brace-freedom of a character list: no `\x7b` and no `\x7d`. -/
def braceFreeL (cs : List Char) : Bool :=
  cs.all fun c => !(c = '\x7b' ∨ c = '\x7d')

lemma formatAux_char_none (m : List (String × PyVal)) (c : Char) (rest : List Char)
    (h1 : ¬(c = '\x7b')) (h2 : ¬(c = '\x7d')) :
    formatAux m (c :: rest) none = (fun s => c :: s) <$> formatAux m rest none := by
  rw [formatAux.eq_def]
  simp only [if_neg h1, if_neg h2]

lemma formatAux_open (m : List (String × PyVal)) (c0 : Char) (rest : List Char)
    (h1 : ¬(c0 = '\x7b')) :
    formatAux m ('\x7b' :: c0 :: rest) none = formatAux m (c0 :: rest) (some []) := by
  rw [formatAux.eq_def]
  simp only [if_neg h1]
  rw [if_pos trivial]

lemma formatAux_close (m : List (String × PyVal)) (rest acc : List Char) :
    formatAux m ('\x7d' :: rest) (some acc) =
      match lookupStr m (String.mk acc) with
      | some v => (fun s => (pyStr v).data ++ s) <$> formatAux m rest none
      | none => .error (.keyError (String.mk acc)) := by
  rw [formatAux.eq_def]
  simp only []
  rw [if_pos trivial]

lemma formatAux_char_some (m : List (String × PyVal)) (c : Char) (rest acc : List Char)
    (h1 : ¬(c = '\x7b')) (h2 : ¬(c = '\x7d')) :
    formatAux m (c :: rest) (some acc) = formatAux m rest (some (acc ++ [c])) := by
  rw [formatAux.eq_def]
  simp only [if_neg h1, if_neg h2]

lemma formatAux_lit (m : List (String × PyVal)) (cs rest : List Char)
    (h : braceFreeL cs = true) :
    formatAux m (cs ++ rest) none = (fun s => cs ++ s) <$> formatAux m rest none := by
  induction cs with
  | nil =>
    cases hr : formatAux m rest none <;> simp [hr, Except.map]
  | cons c cs ih =>
    have hc := List.all_eq_true.mp h c (List.mem_cons_self _ _)
    have h1 : ¬(c = '\x7b') := by simp at hc; exact hc.1
    have h2 : ¬(c = '\x7d') := by simp at hc; exact hc.2
    have ih' := ih (List.all_eq_true.mpr fun x hx =>
      List.all_eq_true.mp h x (List.mem_cons_of_mem _ hx))
    rw [List.cons_append, formatAux_char_none m c _ h1 h2, ih']
    cases hr : formatAux m rest none <;> simp [hr, Except.map]

lemma formatAux_braceFree (m : List (String × PyVal)) (cs : List Char)
    (h : braceFreeL cs = true) : formatAux m cs none = .ok cs := by
  have := formatAux_lit m cs [] h
  rw [List.append_nil] at this
  rw [this]
  simp [formatAux, Except.map]

lemma formatAux_hole (m : List (String × PyVal)) (cs rest : List Char)
    (h : braceFreeL cs = true) (acc : List Char) :
    formatAux m (cs ++ '\x7d' :: rest) (some acc) =
      match lookupStr m (String.mk (acc ++ cs)) with
      | some v => (fun s => (pyStr v).data ++ s) <$> formatAux m rest none
      | none => .error (.keyError (String.mk (acc ++ cs))) := by
  induction cs generalizing acc with
  | nil =>
    rw [List.nil_append, List.append_nil, formatAux_close]
  | cons c cs ih =>
    have hc := List.all_eq_true.mp h c (List.mem_cons_self _ _)
    have h1 : ¬(c = '\x7b') := by simp at hc; exact hc.1
    have h2 : ¬(c = '\x7d') := by simp at hc; exact hc.2
    have ih' := ih (List.all_eq_true.mpr fun x hx =>
      List.all_eq_true.mp h x (List.mem_cons_of_mem _ hx)) (acc ++ [c])
    rw [List.cons_append, formatAux_char_some m c _ acc h1 h2, ih']
    rw [List.append_assoc, List.singleton_append]

lemma data_ne_nil_of_ne_empty (p : String) (h : p ≠ "") : p.data ≠ [] := by
  intro he
  exact h (by cases p; simp_all)

lemma pyFormat_single_hole (m : List (String × PyVal)) (pre suf p : String)
    (hpre : braceFreeL pre.data = true) (hsuf : braceFreeL suf.data = true)
    (hp : braceFreeL p.data = true) (hpne : p ≠ "") :
    pyFormat (pre ++ "\x7b" ++ p ++ "\x7d" ++ suf) m =
      match lookupStr m p with
      | some v => .ok (pre ++ pyStr v ++ suf)
      | none => .error (.keyError p) := by
  have hdata : (pre ++ "\x7b" ++ p ++ "\x7d" ++ suf).data
      = pre.data ++ '\x7b' :: (p.data ++ '\x7d' :: suf.data) := by
    simp [String.data_append]
  unfold pyFormat
  rw [hdata, formatAux_lit m pre.data _ hpre]
  cases hpd : p.data with
  | nil => exact absurd hpd (data_ne_nil_of_ne_empty p hpne)
  | cons c0 ptl =>
    have hp' : braceFreeL (c0 :: ptl) = true := by rw [← hpd]; exact hp
    have hc0 := List.all_eq_true.mp hp' c0 (List.mem_cons_self _ _)
    have h1 : ¬(c0 = '\x7b') := by simp at hc0; exact hc0.1
    rw [List.cons_append, formatAux_open m c0 (ptl ++ '\x7d' :: suf.data) h1,
      ← List.cons_append, formatAux_hole m (c0 :: ptl) suf.data hp' []]
    have hmkp : String.mk (c0 :: ptl) = p := by
      rw [← hpd]
    rw [List.nil_append, hmkp]
    cases hl : lookupStr m p with
    | none => simp
    | some v =>
      rw [formatAux_braceFree m suf.data hsuf]
      show Except.ok (String.mk (pre.data ++ ((pyStr v).data ++ suf.data)))
          = Except.ok (pre ++ pyStr v ++ suf)
      refine congrArg _ ?_
      apply String.ext
      simp [String.data_append]

/-! ## Claim theorems -/

/-- Claim C1: for every decorated method and every call whose keyword
arguments fail validation against the merged request adapter, the call
raises the validation error carrying field-level detail (a nonempty list
of per-field errors), and the injected transport's send operation is never
invoked for that call (its invocation count is zero). -/
theorem c1_validation_failure_blocks_send (rt : PyClass) (p : ApiMethodParams)
    (method url : String) (transport : HttpxRequest → HttpxResponse)
    (kwargs : List (String × PyVal)) (errs : List FieldError)
    (h : validateRequestParams p kwargs = .error errs) :
    runCall rt p method url transport kwargs = (.error (.validationErr errs), 0)
      ∧ errs ≠ [] := by
  refine ⟨?_, validateRequestParams_error_ne_nil p kwargs errs h⟩
  simp [runCall, h]

/-- Claim C1 witness: a positive-integer constrained query parameter given
`-1` raises `greater_than` on that field and the transport sends
nothing. -/
theorem c1_witness :
    runCall .responseC
      { query := [("qs_test_id", .annotated (.cls .intC) [.gt 0, .queryM (some "testID")])] }
      "GET" "/comments" (fun _ => ⟨200, ""⟩) [("qs_test_id", .vInt (-1))]
      = (.error (.validationErr [⟨"qs_test_id", "greater_than"⟩]), 0)
    ∧ ([(⟨"qs_test_id", "greater_than"⟩ : FieldError)]) ≠ [] :=
  c1_validation_failure_blocks_send .responseC
    { query := [("qs_test_id", .annotated (.cls .intC) [.gt 0, .queryM (some "testID")])] }
    "GET" "/comments" (fun _ => ⟨200, ""⟩) [("qs_test_id", .vInt (-1))]
    [⟨"qs_test_id", "greater_than"⟩] (by decide)

/-- Truthiness of the decoration raising the configuration `ValueError`
(the error shape claim C2 requires). -/
def isConfigValueError : Except PyErr DecoratedCall → Bool
  | .error (.valueError _) => true
  | _ => false

/-- Claim C2 counterexample: a method declaration with NO return
annotation does not get the configuration error naming the supported
shapes — the decoration raises the bare `TypeError` of
`issubclass(None, ...)` instead, so the claim as stated is false at this
input. -/
theorem c2_counterexample :
    apiCallDecorate [("post", .cls (.modelC "CreatePostRequest"))] = .error .typeError
    ∧ isConfigValueError
        (apiCallDecorate [("post", .cls (.modelC "CreatePostRequest"))]) = false := by
  decide

/-- Claim C2 (amended): decoration always fails at class-definition time
for a bad return annotation, but the error shape differs by case: with
the annotation absent, the `issubclass` check itself raises a `TypeError`
(naming nothing); with the annotation a class outside the supported set,
decoration raises the configuration `ValueError` naming the supported
shapes and the shape found. -/
theorem c2_return_annotation_errors (annots : List (String × PyType)) :
    (lookupStr annots "return" = none → apiCallDecorate annots = .error .typeError)
    ∧ (∀ c : PyClass, (lookupStr annots "return").map stripAnn = some (.cls c) →
        validReturn c = false →
        apiCallDecorate annots
          = .error (.valueError (returnTypeMsg (pyReprOf (.cls c))))) := by
  constructor
  · intro h
    simp [apiCallDecorate, h]
  · intro c hc hv
    unfold apiCallDecorate
    rw [hc]
    simp [hv]

/-- Claim C2 witness: the amended theorem applied to a return-less method
and to a method returning `str`. -/
theorem c2_witness :
    apiCallDecorate [("a", .cls .dictC)] = .error .typeError
    ∧ apiCallDecorate [("x", .cls .intC), ("return", .cls .strC)]
      = .error (.valueError (returnTypeMsg "<class 'str'>")) :=
  ⟨(c2_return_annotation_errors [("a", .cls .dictC)]).1 (by decide),
    (c2_return_annotation_errors [("x", .cls .intC), ("return", .cls .strC)]).2
      .strC (by decide) (by decide)⟩

/-- Claim C3: a parameter whose declared type is a structured model
explicitly marked with the `Query` binding makes signature scanning raise
the "not supported" `NotImplementedError` at decoration time; the
parameter is neither accepted nor dropped, and the decoration as a whole
never succeeds. -/
theorem c3_model_query_rejected (annots : List (String × PyType)) (k nm : String)
    (ms : List Marker) (a : Option String)
    (hmem : (k, PyType.annotated (.cls (.modelC nm)) ms) ∈ annots)
    (hlast : ms.getLast? = some (.queryM a))
    (hk : k ≠ "return") :
    fromApiMethod annots = .error (.notImplementedError multiQueryMsg)
    ∧ exceptIsOk (apiCallDecorate annots) = false := by
  have hcl : classifyParam k (PyType.annotated (.cls (.modelC nm)) ms)
      = .error (.notImplementedError multiQueryMsg) := by
    simp [classifyParam, hk, hlast]
  have hscan := fromApiMethod_error_of_entry annots ⟨_, hmem, _, hcl⟩
  refine ⟨hscan, ?_⟩
  unfold apiCallDecorate
  cases h0 : (lookupStr annots "return").map stripAnn with
  | none => simp [exceptIsOk]
  | some t =>
    cases t with
    | cls c =>
      by_cases hv : validReturn c
      · simp [hv, hscan, exceptIsOk, Except.map]
      · simp [hv, exceptIsOk]
    | generic o => simp [exceptIsOk]
    | annotated b ms2 => simp [exceptIsOk]

/-- Claim C3 witness: the skipped test's `filters` parameter — a pydantic
model under `Query()` — is rejected at decoration time. -/
theorem c3_witness :
    fromApiMethod [("filters", .annotated (.cls (.modelC "QueryComments")) [.queryM none]),
        ("return", .cls .responseC)] = .error (.notImplementedError multiQueryMsg)
    ∧ exceptIsOk (apiCallDecorate
        [("filters", .annotated (.cls (.modelC "QueryComments")) [.queryM none]),
          ("return", .cls .responseC)]) = false :=
  c3_model_query_rejected
    [("filters", .annotated (.cls (.modelC "QueryComments")) [.queryM none]),
      ("return", .cls .responseC)]
    "filters" "QueryComments" [.queryM none] none (by decide) (by decide) (by decide)

/-- Parameter plan of a method with a single `Path`-bound parameter and no
body parameter (the plan of `path_params_using_kwargs` in the tests). -/
def pathOnlyPlan : ApiMethodParams :=
  { path := [("post_id", .annotated (.cls .intC) [.gt 0, .pathM none])] }

/-- Claim C4 (code bug): a decorated method whose body group is empty does
NOT build a request without a body — the body `TypeAdapter` object is
always truthy (`adapterTruthy`), so the dead `if not self.body` guard
never short-circuits and the built request carries the two-byte serialized
payload `b"\x7b\x7d"` of the empty body `TypedDict`, contradicting the
claim's "absent, not an empty serialized payload". -/
theorem c4_empty_body_group_sends_empty_json_object :
    buildRequest pathOnlyPlan "GET" "/posts/\x7bpost_id\x7d/comments"
        [("post_id", .vInt 123)]
      = .ok { method := "GET", url := "/posts/123/comments",
              queryParams := some [], content := some "\x7b\x7d",
              headers := [("Content-Type", "application/json")] }
    ∧ buildRequestContent pathOnlyPlan [("post_id", .vInt 123)] ≠ none
    ∧ adapterTruthy (pathOnlyPlan.body) = true := by
  decide

/-- Claim C5: for a method whose path group binds `name` and whose URL
template contains the placeholder `\x7bname\x7d`, calling with
`name = v` produces a request URL with the placeholder replaced by the
serialized string form of `v`; with the placeholder unresolved (no path
binding supplies it), URL building raises a `KeyError` instead of sending
the placeholder literally. -/
theorem c5_path_placeholder_substitution (p : ApiMethodParams)
    (pre suf name : String) (ty : PyType) (v : PyVal)
    (kwargs : List (String × PyVal))
    (hpre : braceFreeL pre.data = true) (hsuf : braceFreeL suf.data = true)
    (hname : braceFreeL name.data = true) (hne : name ≠ "") :
    (p.path = [(name, ty)] → lookupStr kwargs name = some v →
      buildRequestUrl p (pre ++ "\x7b" ++ name ++ "\x7d" ++ suf) kwargs
        = .ok (pre ++ pyStr (dumpPyVal false v) ++ suf))
    ∧ (p.path = [] →
      buildRequestUrl p (pre ++ "\x7b" ++ name ++ "\x7d" ++ suf) kwargs
        = .error (.keyError name)) := by
  constructor
  · intro hpath hv
    unfold buildRequestUrl
    simp only [adapterTruthy, if_true]
    rw [pyFormat_single_hole _ pre suf name hpre hsuf hname hne]
    have hm : dumpPythonGroup false p.path kwargs = [(name, dumpPyVal false v)] := by
      rw [hpath]
      simp [dumpPythonGroup, hv]
    rw [hm]
    simp [lookupStr]
  · intro hpath
    unfold buildRequestUrl
    simp only [adapterTruthy, if_true]
    rw [pyFormat_single_hole _ pre suf name hpre hsuf hname hne]
    rw [hpath]
    rfl

/-- Claim C5 witness: the tests' template `/posts/\x7bpost_id\x7d/comments`
with `post_id=123` yields `/posts/123/comments`; the same template over an
empty path group raises `KeyError('post_id')`. -/
theorem c5_witness :
    buildRequestUrl pathOnlyPlan "/posts/\x7bpost_id\x7d/comments"
        [("post_id", .vInt 123)] = .ok "/posts/123/comments"
    ∧ buildRequestUrl ({} : ApiMethodParams) "/posts/\x7bpost_id\x7d/comments"
        [("post_id", .vInt 123)] = .error (.keyError "post_id") :=
  ⟨(c5_path_placeholder_substitution pathOnlyPlan "/posts/" "/comments" "post_id"
      (.annotated (.cls .intC) [.gt 0, .pathM none]) (.vInt 123)
      [("post_id", .vInt 123)] (by decide) (by decide) (by decide) (by decide)).1
      rfl (by decide),
    (c5_path_placeholder_substitution ({} : ApiMethodParams) "/posts/" "/comments"
      "post_id" (.annotated (.cls .intC) [.gt 0, .pathM none]) (.vInt 123)
      [("post_id", .vInt 123)] (by decide) (by decide) (by decide) (by decide)).2
      rfl⟩

/-- Claim C6: a bound parameter carrying a declared serialization alias
contributes its value under the alias instead of the parameter name, in
the query mapping of the built request when it is `Query`-bound and among
the JSON body object's keys when it is body-bound. -/
theorem c6_alias_substitution (p : ApiMethodParams)
    (kwargs : List (String × PyVal)) (n : String) (ty : PyType)
    (a : String) (v : PyVal)
    (ha : serAliasOf ty = some a) (hv : lookupStr kwargs n = some v) :
    ((n, ty) ∈ p.query → (a, dumpPyVal true v) ∈ buildQueryParams p kwargs)
    ∧ ((n, ty) ∈ p.body → (a, dumpJsonVal true v) ∈ bodyJsonEntries p.body kwargs) := by
  constructor
  · intro hm
    unfold buildQueryParams dumpPythonGroup
    exact List.mem_filterMap.mpr ⟨(n, ty), hm, by simp [hv, ha]⟩
  · intro hm
    unfold bodyJsonEntries
    exact List.mem_filterMap.mpr ⟨(n, ty), hm, by simp [hv, ha]⟩

/-- Parameter plan of the tests' `query_params_using_kwargs`: one
query-bound positive int with serialization alias `testID`. -/
def aliasQueryPlan : ApiMethodParams :=
  { query := [("qs_test_id", .annotated (.cls .intC) [.gt 0, .queryM (some "testID")])] }

/-- Claim C6 witness: alias `testID` with value `42` yields the query
mapping entry `("testID", 42)` and the query string exactly `testID=42`. -/
theorem c6_witness :
    ("testID", PyVal.vInt 42) ∈ buildQueryParams aliasQueryPlan [("qs_test_id", .vInt 42)]
    ∧ renderQuery (buildQueryParams aliasQueryPlan [("qs_test_id", .vInt 42)])
      = "testID=42" :=
  ⟨(c6_alias_substitution aliasQueryPlan [("qs_test_id", .vInt 42)] "qs_test_id"
      (.annotated (.cls .intC) [.gt 0, .queryM (some "testID")]) "testID" (.vInt 42)
      (by decide) (by decide)).1 (by decide),
    by decide⟩

/-- Claim C7: a method whose declared return type is the raw transport
response passes the transport's response object through unchanged on a
successful call — no JSON parsing is attempted, and the result holds even
when the response body is not valid JSON. -/
theorem c7_raw_response_passthrough (p : ApiMethodParams) (method url : String)
    (transport : HttpxRequest → HttpxResponse) (kwargs : List (String × PyVal))
    (vp : List (String × PyVal)) (req : HttpxRequest)
    (hv : validateRequestParams p kwargs = .ok vp)
    (hb : buildRequest p method url vp = .ok req)
    (hs : (transport req).status < 400)
    (_hinvalid : pyParseJson (transport req).content = none) :
    runCall .responseC p method url transport kwargs
      = (.ok (.rawResp (transport req)), 1) := by
  have hns : ¬(400 ≤ (transport req).status) := Nat.not_le.mpr hs
  simp [runCall, hv, hb, hns, decodeResponse]

/-- Claim C7 witness: a 200 response whose body `not-json` fails JSON
parsing is still returned unchanged under the raw-response return type. -/
theorem c7_witness :
    runCall .responseC {} "GET" "/x" (fun _ => ⟨200, "not-json"⟩) []
      = (.ok (.rawResp ⟨200, "not-json"⟩), 1) :=
  c7_raw_response_passthrough {} "GET" "/x" (fun _ => ⟨200, "not-json"⟩) [] []
    ⟨"GET", "/x", some [], some "\x7b\x7d", [("Content-Type", "application/json")]⟩
    (by decide) (by decide) (by decide) (by decide)

/-- Claim C8: a response status indicating failure raises the HTTP-status
error before any response-body decoding is attempted (the outcome is the
status error for every body, decodable or not), and every call that
returns does so with a fully decoded result of a successfully sent,
successful-status response. -/
theorem c8_status_error_before_decode (rt : PyClass) (p : ApiMethodParams)
    (method url : String) (transport : HttpxRequest → HttpxResponse)
    (kwargs : List (String × PyVal)) :
    (∀ vp req, validateRequestParams p kwargs = .ok vp →
      buildRequest p method url vp = .ok req →
      400 ≤ (transport req).status →
      runCall rt p method url transport kwargs
        = (.error (.httpStatusErr (transport req).status), 1))
    ∧ (∀ r n, runCall rt p method url transport kwargs = (.ok r, n) →
      ∃ vp req, validateRequestParams p kwargs = .ok vp
        ∧ buildRequest p method url vp = .ok req
        ∧ (transport req).status < 400
        ∧ decodeResponse rt (transport req) = .ok r ∧ n = 1) := by
  constructor
  · intro vp req hv hb hs
    simp [runCall, hv, hb, hs]
  · intro r n h
    unfold runCall at h
    cases hv : validateRequestParams p kwargs with
    | error errs =>
      rw [hv] at h
      simp at h
    | ok vp =>
      rw [hv] at h
      simp only [] at h
      cases hb : buildRequest p method url vp with
      | error e =>
        rw [hb] at h
        simp at h
      | ok req =>
        rw [hb] at h
        simp only [] at h
        by_cases hs : 400 ≤ (transport req).status
        · rw [if_pos hs] at h
          simp at h
        · rw [if_neg hs] at h
          injection h with h1 h2
          exact ⟨vp, req, rfl, hb, Nat.not_le.mp hs, h1, h2.symm⟩

/-- Claim C8 witness: a 500 response makes the call raise the status
error with exactly one send, even under the JSON-mapping return type with
an undecodable body. -/
theorem c8_witness :
    runCall .dictC {} "GET" "/x" (fun _ => ⟨500, "not-json"⟩) []
      = (.error (.httpStatusErr 500), 1) :=
  (c8_status_error_before_decode .dictC {} "GET" "/x"
      (fun _ => ⟨500, "not-json"⟩) []).1
    [] ⟨"GET", "/x", some [], some "\x7b\x7d", [("Content-Type", "application/json")]⟩
    (by decide) (by decide) (by decide)

/-- Claim C9: for every parameter plan produced by signature scanning, the
merged request-validation mapping holds exactly the keys of the path,
query and body groups, and no header-group parameter appears in it. -/
theorem c9_merged_request_mapping (annots : List (String × PyType))
    (plan : ApiMethodParams) (k : String)
    (hd : distinctKeys annots)
    (hs : fromApiMethod annots = .ok plan) :
    ((lookupStr (requestParams plan) k).isSome
      ↔ ((lookupStr plan.path k).isSome ∨ (lookupStr plan.query k).isSome
          ∨ (lookupStr plan.body k).isSome))
    ∧ ((lookupStr plan.header k).isSome = true
        → lookupStr (requestParams plan) k = none) := by
  constructor
  · rw [lookupStr_requestParams_isSome]
    simp [Bool.or_eq_true, or_assoc]
  · intro hh
    cases hhl : lookupStr plan.header k with
    | none => rw [hhl] at hh; simp at hh
    | some t =>
      have hmemH := fromApiMethod_group_mem annots plan .header k t hs hhl
      have contra : ∀ s : Slot, s ≠ Slot.header →
          ∀ t2, lookupStr (groupOf plan s) k = some t2 → False := by
        intro s hsne t2 ht2
        have h2 := fromApiMethod_group_mem annots plan s k t2 hs ht2
        have hteq : t = t2 := mem_annots_eq_of_distinct annots k t t2 hd hmemH.1 h2.1
        rw [← hteq] at h2
        have hcc := hmemH.2.symm.trans h2.2
        injection hcc with h4
        injection h4 with h5
        exact hsne h5.symm
      cases hrl : lookupStr (requestParams plan) k with
      | none => rfl
      | some t2 =>
        exfalso
        have hsome : (lookupStr (requestParams plan) k).isSome = true := by
          rw [hrl]; rfl
        rw [lookupStr_requestParams_isSome] at hsome
        have h3 : (lookupStr plan.path k).isSome = true
            ∨ (lookupStr plan.query k).isSome = true
            ∨ (lookupStr plan.body k).isSome = true := by
          simpa [Bool.or_eq_true, or_assoc] using hsome
        rcases h3 with h3 | h3 | h3
        · obtain ⟨t3, ht3⟩ := Option.isSome_iff_exists.mp h3
          exact contra .path (by decide) t3 ht3
        · obtain ⟨t3, ht3⟩ := Option.isSome_iff_exists.mp h3
          exact contra .query (by decide) t3 ht3
        · obtain ⟨t3, ht3⟩ := Option.isSome_iff_exists.mp h3
          exact contra .body (by decide) t3 ht3

/-- Annotations of a method mixing a header-bound and a query-bound
parameter. -/
def headerQueryAnnots : List (String × PyType) :=
  [("h_tok", .annotated (.cls .strC) [.headerM none]),
    ("q_id", .annotated (.cls .intC) [.queryM none]),
    ("return", .cls .responseC)]

/-- Plan the scanner produces for `headerQueryAnnots`. -/
def headerQueryPlan : ApiMethodParams :=
  { header := [("h_tok", .annotated (.cls .strC) [.headerM none])],
    query := [("q_id", .annotated (.cls .intC) [.queryM none])] }

/-- Claim C9 witness: the header-bound `h_tok` is absent from the merged
request mapping while the query-bound `q_id` is present. -/
theorem c9_witness :
    lookupStr (requestParams headerQueryPlan) "h_tok" = none
    ∧ (lookupStr (requestParams headerQueryPlan) "q_id").isSome = true :=
  ⟨(c9_merged_request_mapping headerQueryAnnots headerQueryPlan "h_tok"
      (by unfold distinctKeys; decide) (by decide)).2 (by decide),
    by decide⟩

/-- Claim C10 (implicit): a parameter whose annotation matches none of the
scanner's recognized shapes is placed in no binding group and raises no
error — scanning proceeds exactly as if the parameter were absent — and
its call-time value is silently excluded from validation and from the
whole call (the call's outcome with the value supplied equals the outcome
without it). -/
theorem c10_unrecognized_param_silently_dropped (k : String) (t : PyType)
    (rest : List (String × PyType)) (plan : ApiMethodParams) (v : PyVal)
    (kwargs : List (String × PyVal)) (rt : PyClass) (method url : String)
    (transport : HttpxRequest → HttpxResponse)
    (_hk : k ≠ "return") (hc : classifyParam k t = .ok none)
    (hr : fromApiMethod rest = .ok plan)
    (hfresh : ∀ q ∈ rest, q.1 ≠ k) :
    fromApiMethod ((k, t) :: rest) = .ok plan
    ∧ lookupStr plan.path k = none ∧ lookupStr plan.query k = none
    ∧ lookupStr plan.header k = none ∧ lookupStr plan.body k = none
    ∧ validateRequestParams plan ((k, v) :: kwargs) = validateRequestParams plan kwargs
    ∧ runCall rt plan method url transport ((k, v) :: kwargs)
        = runCall rt plan method url transport kwargs := by
  have hgroups : ∀ s : Slot, lookupStr (groupOf plan s) k = none := by
    intro s
    cases hls : lookupStr (groupOf plan s) k with
    | none => rfl
    | some t2 =>
      exfalso
      have h2 := fromApiMethod_group_mem rest plan s k t2 hr hls
      exact hfresh (k, t2) h2.1 rfl
  have hP : lookupStr plan.path k = none := hgroups .path
  have hQ : lookupStr plan.query k = none := hgroups .query
  have hH : lookupStr plan.header k = none := hgroups .header
  have hB : lookupStr plan.body k = none := hgroups .body
  have hreq : lookupStr (requestParams plan) k = none := by
    have h1 := lookupStr_requestParams_isSome plan k
    rw [hP, hQ, hB] at h1
    cases hq : lookupStr (requestParams plan) k with
    | none => rfl
    | some t2 => rw [hq] at h1; simp at h1
  have hval := validateRequestParams_prepend_irrelevant plan kwargs k v hreq
  refine ⟨?_, hP, hQ, hH, hB, hval, ?_⟩
  · simp [fromApiMethod, hc, hr, insertSlot, Except.map]
  · simp [runCall, hval]

/-- Claim C10 witness: a `list[int]`-annotated parameter (a generic alias
with no binding marker) scans to the empty plan without error, and the
supplied value `7` changes neither validation nor the call. -/
theorem c10_witness :
    fromApiMethod [("items", .generic .intC), ("return", .cls .responseC)]
      = .ok ({} : ApiMethodParams)
    ∧ validateRequestParams ({} : ApiMethodParams) [("items", .vInt 7)]
      = validateRequestParams ({} : ApiMethodParams) []
    ∧ runCall .responseC ({} : ApiMethodParams) "GET" "/x" (fun _ => ⟨200, ""⟩)
        [("items", .vInt 7)]
      = runCall .responseC ({} : ApiMethodParams) "GET" "/x" (fun _ => ⟨200, ""⟩) [] :=
  have w := c10_unrecognized_param_silently_dropped "items" (.generic .intC)
    [("return", .cls .responseC)] ({} : ApiMethodParams) (.vInt 7) []
    .responseC "GET" "/x" (fun _ => ⟨200, ""⟩)
    (by decide) (by decide) (by decide) (by decide)
  ⟨w.1, w.2.2.2.2.2.1, w.2.2.2.2.2.2⟩
